import Mathlib

/-!
Verification of the itsalive HTTP monitor (src/itsalive.go).

The Go source is shallowly embedded below.  Go `int` values are modelled
as `Int`; `time.Duration` values are modelled as `Int` (nanoseconds);
Go slices are Lean lists; a Go function that can fault (slice access out
of bounds) returns `Option`, with `none` standing for the fault.  Errors
returned by the validators are modelled by `Option String`, with `none`
standing for the Go `nil` error and `some msg` for `errors.New msg`.
-/

namespace Itsalive

/-- Embeds the Go enumeration `checkStatus` (itsalive.go lines 21-27).
`checkStatusUnknown` is the `iota` zero value, which is also the zero
value a fresh Go slice of `checkStatus` is filled with. -/
inductive checkStatus where
  | checkStatusUnknown : checkStatus
  | checkStatusOk : checkStatus
  | checkStatusAlarm : checkStatus
deriving DecidableEq

open checkStatus

/-- Embeds the Go struct `urlConfig` (lines 29-37).  Durations are in
nanoseconds, matching Go `time.Duration` which is an `int64` count of
nanoseconds. -/
structure urlConfig where
  Name : String
  URL : String
  OKStatuses : List Int
  CheckInterval : Int
  OKPeriods : Int
  AlarmPeriods : Int
  HTTPTimeout : Int
deriving DecidableEq

/-- Embeds the Go struct `aliveConfig` (lines 39-44). -/
structure aliveConfig where
  Items : List urlConfig
  SlackToken : String
  SlackChannel : String
  BotName : String
deriving DecidableEq

/-- Embeds the Go struct `statusChange` (lines 46-52).  The Go fields
`from` and `to` are Lean keywords, so they are named `fromStatus` and
`toStatus` here; `time` is an abstract timestamp. -/
structure statusChange where
  name : String
  url : String
  time : Int
  fromStatus : checkStatus
  toStatus : checkStatus
deriving DecidableEq

/-- Embeds the Go helper `max` for ints (lines 79-84). -/
def max (x y : Int) : Int :=
  if x > y then x else y

/-- Embeds the Go helper `intInSlice` (lines 86-93). -/
def intInSlice (a : Int) (slice : List Int) : Bool :=
  match slice with
  | [] => false
  | b :: rest => if a = b then true else intInSlice a rest

/-- Embeds `checkResponse` (lines 71-77).  The Go pair
`(resp *http.Response, err error)` is modelled as `Option Int`:
`none` is a transport error (`err != nil`), `some code` is a response
that arrived with status code `code`. -/
def checkResponse (resp : Option Int) (config : urlConfig) : Bool :=
  match resp with
  | none => false
  | some statusCode => intInSlice statusCode config.OKStatuses

/-- A Go slice read `history[idx]` with an `int` index: `none` models the
out-of-bounds fault raised when `idx` is negative or not below the
length. -/
def goIndex (history : List checkStatus) (idx : Int) : Option checkStatus :=
  if h : 0 ≤ idx ∧ idx.toNat < history.length then
    some (history.get ⟨idx.toNat, h.2⟩)
  else
    none

/-- Embeds the loop `for idx := start; idx >= lo; idx--` used twice in
`getNewStatus` (lines 99-104 and 111-116): it reads `history[idx]` and
stops with `some false` at the first entry different from `target`.
The `fuel` argument is the exact number of loop iterations,
`(start - lo + 1).toNat`, which makes the recursion structural. -/
def scanLoop (history : List checkStatus) (target : checkStatus) :
    Nat → Int → Option Bool
  | 0, _ => some true
  | fuel + 1, idx =>
    match goIndex history idx with
    | none => none
    | some v =>
      if v = target then scanLoop history target fuel (idx - 1)
      else some false

/-- The loop of `getNewStatus` running from index `start` down to index
`lo` inclusive. -/
def scanAll (history : List checkStatus) (target : checkStatus)
    (start lo : Int) : Option Bool :=
  scanLoop history target (start - lo + 1).toNat start

/-- One of the two guarded loops of `getNewStatus`: in Go the loop body
only runs when `history[size-1]` equals the target status; otherwise the
flag variable keeps its meaning of `no unanimous run found`, modelled by
`some false`. -/
def checkBranch (history : List checkStatus) (target : checkStatus)
    (periods : Int) (lastEntry : checkStatus) : Option Bool :=
  if lastEntry = target then
    scanAll history target ((history.length : Int) - 2)
      ((history.length : Int) - periods)
  else
    some false

/-- Embeds `getNewStatus` (lines 95-122).  The first read is
`history[size-1]`; then, when the last entry is `checkStatusOk`, the loop
scans indices `size-2` down to `size-okPeriods` and an early `return
checkStatusOk` fires when all of them hold `checkStatusOk`; the
symmetric check runs for `checkStatusAlarm`; otherwise
`checkStatusUnknown` is returned.  `none` models a panic from an
out-of-bounds slice read. -/
def getNewStatus (history : List checkStatus) (okPeriods alarmPeriods : Int) :
    Option checkStatus :=
  (goIndex history ((history.length : Int) - 1)).bind fun lastEntry =>
    (checkBranch history checkStatusOk okPeriods lastEntry).bind fun okAll =>
      if lastEntry = checkStatusOk ∧ okAll = true then
        some checkStatusOk
      else
        (checkBranch history checkStatusAlarm alarmPeriods lastEntry).bind
          fun alarmAll =>
            if lastEntry = checkStatusAlarm ∧ alarmAll = true then
              some checkStatusAlarm
            else
              some checkStatusUnknown

/-- Embeds `validateURLConfig` (lines 166-192).  `utf8.RuneCountInString s
== 0` holds exactly when `s` is empty, and is modelled by
`String.length = 0`; `d.Seconds() == 0` holds exactly when the duration
`d` is zero nanoseconds, because a nonzero `int64` nanosecond count
divided by `1e9` as a float is never exactly zero. -/
def validateURLConfig (config : urlConfig) : Option String :=
  if config.URL.length = 0 then some ("empty URL")
  else if config.OKStatuses.length = 0 then some ("empty OKStatuses")
  else if config.CheckInterval = 0 then some ("CheckInterval == 0s")
  else if config.HTTPTimeout = 0 then some ("HTTPTimeout == 0s")
  else if config.AlarmPeriods = 0 then some ("AlarmPeriods == 0")
  else if config.OKPeriods = 0 then some ("OKPeriods == 0")
  else none

/-- Embeds the `for idx, conf := range config.Items` loop of
`validateConfig` (lines 211-215); `idx` is the index of the head of
`items` in the original list. -/
def validateItems (items : List urlConfig) (idx : Nat) : Option String :=
  match items with
  | [] => none
  | conf :: rest =>
    match validateURLConfig conf with
    | some err => some ("invalid item " ++ toString idx ++ ": " ++ err)
    | none => validateItems rest (idx + 1)

/-- Embeds `validateConfig` (lines 194-218). -/
def validateConfig (config : aliveConfig) : Option String :=
  if config.SlackToken.length = 0 then some ("empty SlackToken")
  else if config.SlackChannel.length = 0 then some ("empty SlackChannel")
  else if config.BotName.length = 0 then some ("empty BotName")
  else if config.Items.length = 0 then some ("no items")
  else validateItems config.Items 0

/-- The classification step of the `watchURL` loop (lines 141-146): the
boolean poll result becomes `checkStatusOk` or `checkStatusAlarm`. -/
def classify (resp : Option Int) (config : urlConfig) : checkStatus :=
  if checkResponse resp config then checkStatusOk else checkStatusAlarm

/-- The history update of the `watchURL` loop (line 148):
`history = append(history[1:], currentStatus)`. -/
def updateHistory (history : List checkStatus) (currentStatus : checkStatus) :
    List checkStatus :=
  history.drop 1 ++ [currentStatus]

/-- The two loop-local variables of `watchURL` (lines 127-128). -/
structure watchState where
  lastStatus : checkStatus
  history : List checkStatus
deriving DecidableEq

/-- The state of `watchURL` on entry to its loop (lines 127-128): the
last confirmed status starts as `checkStatusUnknown` and the history is
a fresh Go slice of length `max OKPeriods AlarmPeriods`, filled with the
zero value `checkStatusUnknown`. -/
def initialState (config : urlConfig) : watchState :=
  ⟨checkStatusUnknown,
   List.replicate (max config.OKPeriods config.AlarmPeriods).toNat
     checkStatusUnknown⟩

/-- One iteration of the `watchURL` loop (lines 137-163) given the poll
result `resp` of this iteration and the current wall-clock time `now`:
classify, slide the history window, evaluate, and emit a `statusChange`
event exactly when the evaluation is neither `checkStatusUnknown` nor
equal to `lastStatus`, in which case `lastStatus` is updated.  `none`
models a panic inside `getNewStatus`. -/
def watchURLStep (config : urlConfig) (now : Int) (st : watchState)
    (resp : Option Int) : Option (watchState × Option statusChange) :=
  match getNewStatus (updateHistory st.history (classify resp config))
      config.OKPeriods config.AlarmPeriods with
  | none => none
  | some newStatus =>
    if newStatus ≠ checkStatusUnknown ∧ newStatus ≠ st.lastStatus then
      some (⟨newStatus, updateHistory st.history (classify resp config)⟩,
            some ⟨config.Name, config.URL, now, st.lastStatus, newStatus⟩)
    else
      some (⟨st.lastStatus, updateHistory st.history (classify resp config)⟩,
            none)

/-- Finitely many iterations of the `watchURL` loop, one per poll result
in `polls`, collecting the emitted events in order. -/
def watchURLRun (config : urlConfig) (now : Int) :
    watchState → List (Option Int) →
    Option (watchState × List statusChange)
  | st, [] => some (st, [])
  | st, resp :: rest =>
    match watchURLStep config now st resp with
    | none => none
    | some (st1, ev) =>
      match watchURLRun config now st1 rest with
      | none => none
      | some (stF, evs) => some (stF, ev.toList ++ evs)

/-! Specification-side predicates about history windows, used to state
the claims. -/

/-- The last `k` entries of `h` (the entries at indices
`h.length - k, ..., h.length - 1`) all equal `t`. -/
def lastEntriesAll (h : List checkStatus) (k : Int) (t : checkStatus) : Prop :=
  ∀ j : Fin h.length, (h.length : Int) - k ≤ ((j : Nat) : Int) → h.get j = t

instance (h : List checkStatus) (k : Int) (t : checkStatus) :
    Decidable (lastEntriesAll h k t) :=
  decidable_of_iff
    (∀ j : Fin h.length, (h.length : Int) - k ≤ ((j : Nat) : Int) → h.get j = t)
    Iff.rfl

/-- Among the last `k` entries of `h` two entries differ, i.e. the window
is not unanimous. -/
def lastEntriesDiffer (h : List checkStatus) (k : Int) : Prop :=
  ∃ j1 j2 : Fin h.length,
    (h.length : Int) - k ≤ ((j1 : Nat) : Int) ∧
    (h.length : Int) - k ≤ ((j2 : Nat) : Int) ∧
    h.get j1 ≠ h.get j2

instance (h : List checkStatus) (k : Int) : Decidable (lastEntriesDiffer h k) :=
  decidable_of_iff
    (∃ j1 j2 : Fin h.length,
      (h.length : Int) - k ≤ ((j1 : Nat) : Int) ∧
      (h.length : Int) - k ≤ ((j2 : Nat) : Int) ∧
      h.get j1 ≠ h.get j2)
    Iff.rfl

/-- Some entry among the last `k` entries of `h` is the neutral
`checkStatusUnknown`. -/
def unknownWithin (h : List checkStatus) (k : Int) : Prop :=
  ∃ j : Fin h.length,
    (h.length : Int) - k ≤ ((j : Nat) : Int) ∧ h.get j = checkStatusUnknown

instance (h : List checkStatus) (k : Int) : Decidable (unknownWithin h k) :=
  decidable_of_iff
    (∃ j : Fin h.length,
      (h.length : Int) - k ≤ ((j : Nat) : Int) ∧ h.get j = checkStatusUnknown)
    Iff.rfl

/-! Basic facts about the embedded helpers. -/

lemma maxGeLeft (x y : Int) : x ≤ max x y := by
  unfold max
  split <;> omega

lemma maxGeRight (x y : Int) : y ≤ max x y := by
  unfold max
  split <;> omega

lemma goIndex_pos (h : List checkStatus) (idx : Int) (h0 : 0 ≤ idx)
    (h1 : idx.toNat < h.length) :
    goIndex h idx = some (h.get ⟨idx.toNat, h1⟩) := by
  unfold goIndex
  rw [dif_pos ⟨h0, h1⟩]

/-- The loop of `getNewStatus` with `fuel` iterations left, standing at
index `idx`, never faults while `idx` stays below the length and the
loop cannot run past index `0`; it returns `true` exactly when every
entry between `idx + 1 - fuel` and `idx` equals `target`. -/
lemma scanLoop_eq (h : List checkStatus) (t : checkStatus) (fuel : Nat) :
    ∀ idx : Int, idx < (h.length : Int) → 0 ≤ idx + 1 - (fuel : Int) →
    scanLoop h t fuel idx =
      some (decide (∀ j : Fin h.length,
        idx + 1 - (fuel : Int) ≤ ((j : Nat) : Int) →
        ((j : Nat) : Int) ≤ idx → h.get j = t)) := by
  induction fuel with
  | zero =>
    intro idx hlt hge
    simp only [scanLoop]
    congr 1
    symm
    rw [decide_eq_true_eq]
    intro j h1 h2
    omega
  | succ fuel ih =>
    intro idx hlt hge
    have h0 : 0 ≤ idx := by omega
    have hidx : idx.toNat < h.length := by omega
    simp only [scanLoop, goIndex_pos h idx h0 hidx]
    by_cases hv : h.get ⟨idx.toNat, hidx⟩ = t
    · rw [if_pos hv, ih (idx - 1) (by omega) (by omega)]
      congr 1
      rw [decide_eq_decide]
      constructor
      · intro H j h1 h2
        by_cases hle : ((j : Nat) : Int) ≤ idx - 1
        · exact H j (by omega) hle
        · have hj : (j : Nat) = idx.toNat := by omega
          have hj' : j = ⟨idx.toNat, hidx⟩ := Fin.ext hj
          rw [hj']
          exact hv
      · intro H j h1 h2
        exact H j (by omega) (by omega)
    · rw [if_neg hv]
      congr 1
      symm
      rw [decide_eq_false_iff_not]
      intro H
      apply hv
      exact H ⟨idx.toNat, hidx⟩
        (show idx + 1 - ((fuel + 1 : Nat) : Int) ≤ (idx.toNat : Int) by omega)
        (show (idx.toNat : Int) ≤ idx by omega)

/-- The loop of `getNewStatus` running from `start` down to `lo`: with
`lo` nonnegative and `start` below the length it never faults and
returns `true` exactly when all entries with index in `[lo, start]`
equal `target`. -/
lemma scanAll_spec (h : List checkStatus) (t : checkStatus) (start lo : Int)
    (hlo : 0 ≤ lo) (hstart : start < (h.length : Int)) :
    scanAll h t start lo =
      some (decide (∀ j : Fin h.length, lo ≤ ((j : Nat) : Int) →
        ((j : Nat) : Int) ≤ start → h.get j = t)) := by
  unfold scanAll
  by_cases hc : start < lo
  · have hf : (start - lo + 1).toNat = 0 := by omega
    rw [hf]
    simp only [scanLoop]
    congr 1
    symm
    rw [decide_eq_true_eq]
    intro j h1 h2
    omega
  · have hf : ((start - lo + 1).toNat : Int) = start - lo + 1 := by omega
    rw [scanLoop_eq h t _ start hstart (by omega)]
    congr 1
    rw [decide_eq_decide]
    constructor
    · intro H j h1 h2
      exact H j (by omega) (by omega)
    · intro H j h1 h2
      exact H j (by omega) (by omega)

lemma checkBranch_ne (h : List checkStatus) (target : checkStatus) (p : Int)
    (lastEntry : checkStatus) (hne : lastEntry ≠ target) :
    checkBranch h target p lastEntry = some false :=
  if_neg hne

lemma checkBranch_spec (h : List checkStatus) (target : checkStatus) (p : Int)
    (hp : p ≤ (h.length : Int)) (lastEntry : checkStatus)
    (heq : lastEntry = target) :
    checkBranch h target p lastEntry =
      some (decide (∀ j : Fin h.length,
        (h.length : Int) - p ≤ ((j : Nat) : Int) →
        ((j : Nat) : Int) ≤ (h.length : Int) - 2 → h.get j = target)) := by
  unfold checkBranch
  rw [if_pos heq, scanAll_spec h target _ _ (by omega) (by omega)]

/-- When the last entry differs from `t`, no window of size at least one
is unanimously `t`. -/
lemma not_lastEntriesAll_of_last_ne (h : List checkStatus) (k : Int)
    (t : checkStatus) (hk : 1 ≤ k)
    (hidx1 : ((h.length : Int) - 1).toNat < h.length)
    (hne : h.get ⟨((h.length : Int) - 1).toNat, hidx1⟩ ≠ t) :
    ¬ lastEntriesAll h k t := by
  intro H
  exact hne (H ⟨((h.length : Int) - 1).toNat, hidx1⟩ (by simp; omega))

/-- When the last entry equals `t`, scanning the preceding entries of
the window is the same as the whole window being unanimously `t`. -/
lemma lastEntriesAll_iff_scan (h : List checkStatus) (k : Int)
    (t : checkStatus) (hn : 1 ≤ (h.length : Int))
    (hidx1 : ((h.length : Int) - 1).toNat < h.length)
    (hlast : h.get ⟨((h.length : Int) - 1).toNat, hidx1⟩ = t) :
    (∀ j : Fin h.length, (h.length : Int) - k ≤ ((j : Nat) : Int) →
      ((j : Nat) : Int) ≤ (h.length : Int) - 2 → h.get j = t) ↔
    lastEntriesAll h k t := by
  constructor
  · intro Q j hj
    by_cases hle : ((j : Nat) : Int) ≤ (h.length : Int) - 2
    · exact Q j hj hle
    · have hjlt := j.isLt
      have hj' : (j : Nat) = ((h.length : Int) - 1).toNat := by omega
      have hj'' : j = ⟨((h.length : Int) - 1).toNat, hidx1⟩ := Fin.ext hj'
      rw [hj'']
      exact hlast
  · intro H j hj _
    exact H j hj

/-- Full characterisation of `getNewStatus` under the bounds that
`watchURL` establishes: it never faults, and the result is the hysteresis
rule of the specification. -/
lemma getNewStatus_eq (h : List checkStatus) (ok al : Int)
    (hok1 : 1 ≤ ok) (hok2 : ok ≤ (h.length : Int))
    (hal1 : 1 ≤ al) (hal2 : al ≤ (h.length : Int)) :
    getNewStatus h ok al =
      some (if lastEntriesAll h ok checkStatusOk then checkStatusOk
            else if lastEntriesAll h al checkStatusAlarm then checkStatusAlarm
            else checkStatusUnknown) := by
  have hn : 1 ≤ (h.length : Int) := le_trans hok1 hok2
  have hidx0 : (0 : Int) ≤ (h.length : Int) - 1 := by omega
  have hidx1 : ((h.length : Int) - 1).toNat < h.length := by omega
  cases hcase : h.get ⟨((h.length : Int) - 1).toNat, hidx1⟩ with
  | checkStatusUnknown =>
    have hA : ¬ lastEntriesAll h ok checkStatusOk :=
      not_lastEntriesAll_of_last_ne h ok checkStatusOk hok1 hidx1
        (by rw [hcase]; intro hc; cases hc)
    have hB : ¬ lastEntriesAll h al checkStatusAlarm :=
      not_lastEntriesAll_of_last_ne h al checkStatusAlarm hal1 hidx1
        (by rw [hcase]; intro hc; cases hc)
    unfold getNewStatus
    rw [goIndex_pos h ((h.length : Int) - 1) hidx0 hidx1, hcase]
    simp only [Option.some_bind]
    rw [checkBranch_ne h checkStatusOk ok checkStatusUnknown (by decide)]
    simp only [Option.some_bind]
    rw [if_neg (by decide)]
    rw [checkBranch_ne h checkStatusAlarm al checkStatusUnknown (by decide)]
    simp only [Option.some_bind]
    rw [if_neg (by decide), if_neg hA, if_neg hB]
  | checkStatusOk =>
    unfold getNewStatus
    rw [goIndex_pos h ((h.length : Int) - 1) hidx0 hidx1, hcase]
    simp only [Option.some_bind]
    rw [checkBranch_spec h checkStatusOk ok hok2 checkStatusOk rfl]
    simp only [Option.some_bind]
    by_cases hQ : ∀ j : Fin h.length,
        (h.length : Int) - ok ≤ ((j : Nat) : Int) →
        ((j : Nat) : Int) ≤ (h.length : Int) - 2 → h.get j = checkStatusOk
    · have hA : lastEntriesAll h ok checkStatusOk :=
        (lastEntriesAll_iff_scan h ok checkStatusOk hn hidx1 hcase).mp hQ
      rw [if_pos ⟨trivial, decide_eq_true hQ⟩, if_pos hA]
    · have hA : ¬ lastEntriesAll h ok checkStatusOk := fun H =>
        hQ ((lastEntriesAll_iff_scan h ok checkStatusOk hn hidx1 hcase).mpr H)
      have hB : ¬ lastEntriesAll h al checkStatusAlarm :=
        not_lastEntriesAll_of_last_ne h al checkStatusAlarm hal1 hidx1
          (by rw [hcase]; intro hc; cases hc)
      rw [if_neg (fun hC => hQ (of_decide_eq_true hC.2))]
      rw [checkBranch_ne h checkStatusAlarm al checkStatusOk (by decide)]
      simp only [Option.some_bind]
      rw [if_neg (by decide), if_neg hA, if_neg hB]
  | checkStatusAlarm =>
    have hA : ¬ lastEntriesAll h ok checkStatusOk :=
      not_lastEntriesAll_of_last_ne h ok checkStatusOk hok1 hidx1
        (by rw [hcase]; intro hc; cases hc)
    unfold getNewStatus
    rw [goIndex_pos h ((h.length : Int) - 1) hidx0 hidx1, hcase]
    simp only [Option.some_bind]
    rw [checkBranch_ne h checkStatusOk ok checkStatusAlarm (by decide)]
    simp only [Option.some_bind]
    rw [if_neg (by decide)]
    rw [checkBranch_spec h checkStatusAlarm al hal2 checkStatusAlarm rfl]
    simp only [Option.some_bind]
    by_cases hQ : ∀ j : Fin h.length,
        (h.length : Int) - al ≤ ((j : Nat) : Int) →
        ((j : Nat) : Int) ≤ (h.length : Int) - 2 → h.get j = checkStatusAlarm
    · have hB : lastEntriesAll h al checkStatusAlarm :=
        (lastEntriesAll_iff_scan h al checkStatusAlarm hn hidx1 hcase).mp hQ
      rw [if_pos ⟨trivial, decide_eq_true hQ⟩, if_neg hA, if_pos hB]
    · have hB : ¬ lastEntriesAll h al checkStatusAlarm := fun H =>
        hQ ((lastEntriesAll_iff_scan h al checkStatusAlarm hn hidx1 hcase).mpr H)
      rw [if_neg (fun hC => hQ (of_decide_eq_true hC.2))]
      rw [if_neg hA, if_neg hB]

lemma stringLengthZero (s : String) : s.length = 0 ↔ s = "" := by
  rw [String.ext_iff]
  cases s with
  | mk data => simp [String.length]

lemma intInSlice_iff (a : Int) (slice : List Int) :
    intInSlice a slice = true ↔ a ∈ slice := by
  induction slice with
  | nil => simp [intInSlice]
  | cons b rest ih =>
    by_cases hab : a = b
    · simp [intInSlice, hab]
    · simp [intInSlice, hab, ih]

/-! The claims about the Status Evaluator. -/

/-- C1: for a history buffer of length `L = max okPeriods alarmPeriods`
with both period counts at least 1, `getNewStatus` returns
`checkStatusOk` when the last `okPeriods` entries are unanimously
`checkStatusOk`; otherwise `checkStatusAlarm` when the last
`alarmPeriods` entries are unanimously `checkStatusAlarm`; otherwise
`checkStatusUnknown`.  In particular the result is `checkStatusOk`
whenever the last `okPeriods` entries are unanimously `checkStatusOk`,
regardless of the older entries. -/
theorem C1_getNewStatus_hysteresis (h : List checkStatus) (ok al : Int)
    (hok : 1 ≤ ok) (hal : 1 ≤ al) (hL : (h.length : Int) = max ok al) :
    getNewStatus h ok al =
      some (if lastEntriesAll h ok checkStatusOk then checkStatusOk
            else if lastEntriesAll h al checkStatusAlarm then checkStatusAlarm
            else checkStatusUnknown)
    ∧ (lastEntriesAll h ok checkStatusOk →
        getNewStatus h ok al = some checkStatusOk) := by
  have hok2 : ok ≤ (h.length : Int) := by rw [hL]; exact maxGeLeft ok al
  have hal2 : al ≤ (h.length : Int) := by rw [hL]; exact maxGeRight ok al
  have hmain := getNewStatus_eq h ok al hok hok2 hal hal2
  refine ⟨hmain, fun hA => ?_⟩
  rw [hmain, if_pos hA]

/-- Witness for C1: the buffer `[Alarm, Ok, Ok]` with `okPeriods = 2`,
`alarmPeriods = 3` evaluates to `Ok` although the oldest entry is
`Alarm`. -/
theorem C1_getNewStatus_hysteresis_witness :
    getNewStatus [checkStatusAlarm, checkStatusOk, checkStatusOk] 2 3 =
      some checkStatusOk :=
  (C1_getNewStatus_hysteresis
    [checkStatusAlarm, checkStatusOk, checkStatusOk] 2 3
    (by decide) (by decide) (by decide)).2 (by decide)

/-- C2 counterexample: the buffer `[Ok, Alarm, Alarm]` with
`okPeriods = 3`, `alarmPeriods = 2` has a differing entry within its
last `okPeriods` positions (so the disjunctive premise of the claim
holds), yet `getNewStatus` returns `checkStatusAlarm`, not
`checkStatusUnknown`. -/
theorem C2_counterexample :
    lastEntriesDiffer
      [checkStatusOk, checkStatusAlarm, checkStatusAlarm] 3
    ∧ ((([checkStatusOk, checkStatusAlarm, checkStatusAlarm] :
          List checkStatus).length : Int) = max 3 2)
    ∧ getNewStatus [checkStatusOk, checkStatusAlarm, checkStatusAlarm] 3 2 =
        some checkStatusAlarm
    ∧ checkStatusAlarm ≠ checkStatusUnknown := by
  decide

/-- C2 (amended): when the last `okPeriods` positions contain a
differing entry AND the last `alarmPeriods` positions contain a
differing entry, `getNewStatus` returns `checkStatusUnknown`; a single
differing entry within one window only blocks that window, and the
other window may still confirm. -/
theorem C2_bothWindowsMixed (h : List checkStatus) (ok al : Int)
    (hok : 1 ≤ ok) (hal : 1 ≤ al) (hL : (h.length : Int) = max ok al)
    (hdo : lastEntriesDiffer h ok) (hda : lastEntriesDiffer h al) :
    getNewStatus h ok al = some checkStatusUnknown := by
  have hok2 : ok ≤ (h.length : Int) := by rw [hL]; exact maxGeLeft ok al
  have hal2 : al ≤ (h.length : Int) := by rw [hL]; exact maxGeRight ok al
  have hA : ¬ lastEntriesAll h ok checkStatusOk := by
    intro H
    obtain ⟨j1, j2, hj1, hj2, hne⟩ := hdo
    exact hne (by rw [H j1 hj1, H j2 hj2])
  have hB : ¬ lastEntriesAll h al checkStatusAlarm := by
    intro H
    obtain ⟨j1, j2, hj1, hj2, hne⟩ := hda
    exact hne (by rw [H j1 hj1, H j2 hj2])
  rw [getNewStatus_eq h ok al hok hok2 hal hal2, if_neg hA, if_neg hB]

/-- Witness for the amended C2: `[Ok, Alarm]` with both windows of size
2 evaluates to `checkStatusUnknown`. -/
theorem C2_bothWindowsMixed_witness :
    getNewStatus [checkStatusOk, checkStatusAlarm] 2 2 =
      some checkStatusUnknown :=
  C2_bothWindowsMixed [checkStatusOk, checkStatusAlarm] 2 2
    (by decide) (by decide) (by decide) (by decide) (by decide)

/-- C3 counterexample: `[Unknown, Ok, Ok]` with `okPeriods = 2`,
`alarmPeriods = 3` still contains an initial neutral entry, yet
`getNewStatus` returns the confirmed state `checkStatusOk`, not
`checkStatusUnknown`. -/
theorem C3_counterexample :
    checkStatusUnknown ∈
      ([checkStatusUnknown, checkStatusOk, checkStatusOk] : List checkStatus)
    ∧ ((([checkStatusUnknown, checkStatusOk, checkStatusOk] :
          List checkStatus).length : Int) = max 2 3)
    ∧ getNewStatus [checkStatusUnknown, checkStatusOk, checkStatusOk] 2 3 =
        some checkStatusOk
    ∧ checkStatusOk ≠ checkStatusUnknown := by
  decide

/-- C3 (amended): while an initial neutral `checkStatusUnknown` entry
remains within the last `min okPeriods alarmPeriods` positions of the
buffer, `getNewStatus` returns `checkStatusUnknown`; an `Unknown` entry
surviving only among older positions does not prevent a confirmed
state. -/
theorem C3_unknownWithinMin (h : List checkStatus) (ok al : Int)
    (hok : 1 ≤ ok) (hal : 1 ≤ al) (hL : (h.length : Int) = max ok al)
    (hu : unknownWithin h (min ok al)) :
    getNewStatus h ok al = some checkStatusUnknown := by
  have hok2 : ok ≤ (h.length : Int) := by rw [hL]; exact maxGeLeft ok al
  have hal2 : al ≤ (h.length : Int) := by rw [hL]; exact maxGeRight ok al
  obtain ⟨j, hj, hget⟩ := hu
  have hminl : min ok al ≤ ok := min_le_left ok al
  have hminr : min ok al ≤ al := min_le_right ok al
  have hA : ¬ lastEntriesAll h ok checkStatusOk := by
    intro H
    have h1 := H j (by omega)
    rw [hget] at h1
    exact absurd h1 (by decide)
  have hB : ¬ lastEntriesAll h al checkStatusAlarm := by
    intro H
    have h1 := H j (by omega)
    rw [hget] at h1
    exact absurd h1 (by decide)
  rw [getNewStatus_eq h ok al hok hok2 hal hal2, if_neg hA, if_neg hB]

/-- Witness for the amended C3: `[Unknown, Ok]` with both windows of
size 2 evaluates to `checkStatusUnknown`. -/
theorem C3_unknownWithinMin_witness :
    getNewStatus [checkStatusUnknown, checkStatusOk] 2 2 =
      some checkStatusUnknown :=
  C3_unknownWithinMin [checkStatusUnknown, checkStatusOk] 2 2
    (by decide) (by decide) (by decide) (by decide)

/-- A target configuration whose durations and period counts are all
negative: `validateURLConfig` accepts it, although the specification
demands strictly positive durations and periods at least 1. -/
def badConfig : urlConfig :=
  ⟨"bad", "http://example.com", [200], -1, -1, -1, -1⟩

/-- C5 counterexample: `validateURLConfig` accepts a configuration with
a negative poll interval, a negative timeout, and negative period
counts, so it does NOT fail whenever the interval or timeout is not
strictly positive or a period count is below 1. -/
theorem C5_counterexample :
    validateURLConfig badConfig = none
    ∧ badConfig.CheckInterval < 0
    ∧ badConfig.HTTPTimeout < 0
    ∧ badConfig.OKPeriods < 1
    ∧ badConfig.AlarmPeriods < 1 := by
  decide

/-- C5 (amended): `validateURLConfig` rejects exactly the zero and empty
values — it returns an error precisely when the url is empty, the
status-code set is empty, the poll interval is exactly zero, the HTTP
timeout is exactly zero, `OKPeriods = 0` or `AlarmPeriods = 0`; negative
intervals, timeouts and period counts pass validation. -/
theorem C5_validateURLConfig_iff (config : urlConfig) :
    validateURLConfig config = none ↔
      (config.URL ≠ "" ∧ config.OKStatuses ≠ [] ∧
       config.CheckInterval ≠ 0 ∧ config.HTTPTimeout ≠ 0 ∧
       config.AlarmPeriods ≠ 0 ∧ config.OKPeriods ≠ 0) := by
  unfold validateURLConfig
  by_cases h1 : config.URL.length = 0
  · simp [if_pos h1, (stringLengthZero _).mp h1]
  · rw [if_neg h1]
    have h1' : config.URL ≠ "" := fun he => h1 (by rw [he]; rfl)
    by_cases h2 : config.OKStatuses.length = 0
    · simp [if_pos h2, List.length_eq_zero.mp h2]
    · rw [if_neg h2]
      have h2' : config.OKStatuses ≠ [] := fun he => h2 (by rw [he]; rfl)
      by_cases h3 : config.CheckInterval = 0
      · simp [if_pos h3, h3]
      · rw [if_neg h3]
        by_cases h4 : config.HTTPTimeout = 0
        · simp [if_pos h4, h4]
        · rw [if_neg h4]
          by_cases h5 : config.AlarmPeriods = 0
          · simp [if_pos h5, h5]
          · rw [if_neg h5]
            by_cases h6 : config.OKPeriods = 0
            · simp [if_pos h6, h6]
            · rw [if_neg h6]
              simp [h1', h2', h3, h4, h5, h6]

/-- C7: a single poll classifies as `Ok` (`checkResponse` returns
`true`) exactly when the request produced no transport error and the
response status code belongs to the configured `OKStatuses`; a transport
error or a disallowed status code yields `false` (`Alarm`). -/
theorem C7_checkResponse_iff (resp : Option Int) (config : urlConfig) :
    checkResponse resp config = true ↔
      ∃ code, resp = some code ∧ code ∈ config.OKStatuses := by
  cases resp with
  | none => simp [checkResponse]
  | some code => simp [checkResponse, intInSlice_iff]

/-- C9: under the bounds `watchURL` establishes
(`1 ≤ okPeriods ≤ length`, `1 ≤ alarmPeriods ≤ length`), every slice
read of `getNewStatus` is within bounds: the embedded function never
reaches its out-of-bounds branch (`none`). -/
theorem C9_getNewStatus_no_fault (h : List checkStatus) (ok al : Int)
    (hok1 : 1 ≤ ok) (hok2 : ok ≤ (h.length : Int))
    (hal1 : 1 ≤ al) (hal2 : al ≤ (h.length : Int)) :
    ∃ r, getNewStatus h ok al = some r :=
  ⟨_, getNewStatus_eq h ok al hok1 hok2 hal1 hal2⟩

/-- Witness for C9 on a singleton buffer. -/
theorem C9_getNewStatus_no_fault_witness :
    ∃ r, getNewStatus [checkStatusUnknown] 1 1 = some r :=
  C9_getNewStatus_no_fault [checkStatusUnknown] 1 1
    (by decide) (by decide) (by decide) (by decide)

/-! The watcher loop. -/

/-- One watcher iteration, written as a single equation: the state and
the emitted event are both determined by the evaluation result `ns` and
the previous confirmed state. -/
lemma watchURLStep_eq (config : urlConfig) (now : Int) (st : watchState)
    (resp : Option Int) (ns : checkStatus)
    (hns : getNewStatus (updateHistory st.history (classify resp config))
        config.OKPeriods config.AlarmPeriods = some ns) :
    watchURLStep config now st resp =
      some (⟨if ns ≠ checkStatusUnknown ∧ ns ≠ st.lastStatus then ns
             else st.lastStatus,
             updateHistory st.history (classify resp config)⟩,
            if ns ≠ checkStatusUnknown ∧ ns ≠ st.lastStatus then
              some ⟨config.Name, config.URL, now, st.lastStatus, ns⟩
            else none) := by
  simp only [watchURLStep, hns]
  by_cases hc : ns ≠ checkStatusUnknown ∧ ns ≠ st.lastStatus
  · rw [if_pos hc, if_pos hc, if_pos hc]
  · rw [if_neg hc, if_neg hc, if_neg hc]

/-- A successful watcher iteration always updates the history to the
slid window, whatever the event decision was. -/
lemma watchURLStep_history (config : urlConfig) (now : Int) (st : watchState)
    (resp : Option Int) (st1 : watchState) (ev : Option statusChange)
    (hstep : watchURLStep config now st resp = some (st1, ev)) :
    st1.history = updateHistory st.history (classify resp config) := by
  cases hns : getNewStatus (updateHistory st.history (classify resp config))
      config.OKPeriods config.AlarmPeriods with
  | none =>
    unfold watchURLStep at hstep
    rw [hns] at hstep
    exact Option.noConfusion hstep
  | some ns =>
    rw [watchURLStep_eq config now st resp ns hns] at hstep
    injection hstep with hpair
    injection hpair with h1 h2
    rw [← h1]

/-- The history after a run of the watcher loop is the initial history
followed by the classified poll outcomes, with one entry dropped per
iteration. -/
lemma watchURLRun_history (config : urlConfig) (now : Int) :
    ∀ (polls : List (Option Int)) (st stF : watchState)
      (evs : List statusChange),
    1 ≤ st.history.length →
    watchURLRun config now st polls = some (stF, evs) →
    stF.history =
      (st.history ++ polls.map (fun r => classify r config)).drop
        polls.length := by
  intro polls
  induction polls with
  | nil =>
    intro st stF evs hlen hrun
    unfold watchURLRun at hrun
    injection hrun with hpair
    injection hpair with h1 h2
    rw [← h1]
    simp
  | cons resp rest ih =>
    intro st stF evs hlen hrun
    unfold watchURLRun at hrun
    cases hstep : watchURLStep config now st resp with
    | none =>
      rw [hstep] at hrun
      exact Option.noConfusion hrun
    | some p =>
      obtain ⟨st1, ev⟩ := p
      simp only [hstep] at hrun
      cases hrest : watchURLRun config now st1 rest with
      | none =>
        rw [hrest] at hrun
        exact Option.noConfusion hrun
      | some q =>
        obtain ⟨stF', evs'⟩ := q
        simp only [hrest] at hrun
        injection hrun with hpair
        injection hpair with h1 h2
        have hh1 : st1.history =
            updateHistory st.history (classify resp config) :=
          watchURLStep_history config now st resp st1 ev hstep
        have hlen' : (updateHistory st.history (classify resp config)).length
            = st.history.length - 1 + 1 := by
          unfold updateHistory
          simp
        have hlen1 : 1 ≤ st1.history.length := by
          rw [hh1]
          omega
        have hrec := ih st1 stF' evs' hlen1 hrest
        rw [← h1, hrec, hh1]
        unfold updateHistory
        rw [List.map_cons, List.length_cons]
        rw [(List.drop_append_of_le_length hlen).symm]
        rw [(List.drop_append_of_le_length
          (show 1 ≤ (st.history ++ [classify resp config]).length by
            simp)).symm]
        rw [List.drop_drop, List.append_assoc, List.singleton_append]
        congr 1
        omega

/-- Length preservation for the watcher run: the history buffer keeps
its initial length. -/
lemma watchURLRun_length (config : urlConfig) (now : Int)
    (polls : List (Option Int)) (st stF : watchState)
    (evs : List statusChange) (hlen : 1 ≤ st.history.length)
    (hrun : watchURLRun config now st polls = some (stF, evs)) :
    stF.history.length = st.history.length := by
  have h := watchURLRun_history config now polls st stF evs hlen hrun
  rw [h]
  simp

/-- C4: in each watcher iteration an event is constructed and enqueued
exactly when the evaluation result is not `checkStatusUnknown` and
differs from the stored `lastStatus`; the event carries the target name,
url, timestamp, previous state and new state; `lastStatus` is then set
to the result (and is left unchanged otherwise), so at most one event is
produced per iteration; an iteration that emitted an event is never
followed by a second event for the same confirmed state; and the
initial confirmed state is `checkStatusUnknown`, so the first confirmed
non-`Unknown` state produces exactly one event. -/
theorem C4_watchStep_event (config : urlConfig) (now : Int) (st : watchState)
    (resp : Option Int) (ns : checkStatus)
    (hns : getNewStatus (updateHistory st.history (classify resp config))
        config.OKPeriods config.AlarmPeriods = some ns) :
    watchURLStep config now st resp =
      some (⟨if ns ≠ checkStatusUnknown ∧ ns ≠ st.lastStatus then ns
             else st.lastStatus,
             updateHistory st.history (classify resp config)⟩,
            if ns ≠ checkStatusUnknown ∧ ns ≠ st.lastStatus then
              some ⟨config.Name, config.URL, now, st.lastStatus, ns⟩
            else none)
    ∧ (st.lastStatus = checkStatusUnknown → ns ≠ checkStatusUnknown →
        watchURLStep config now st resp =
          some (⟨ns, updateHistory st.history (classify resp config)⟩,
                some ⟨config.Name, config.URL, now, checkStatusUnknown, ns⟩))
    ∧ (∀ (st1 : watchState) (e : statusChange),
        watchURLStep config now st resp = some (st1, some e) →
        ∀ (resp2 : Option Int) (now2 : Int) (ns2 : checkStatus),
          getNewStatus (updateHistory st1.history (classify resp2 config))
            config.OKPeriods config.AlarmPeriods = some ns2 →
          ns2 = e.toStatus →
          watchURLStep config now2 st1 resp2 =
            some (⟨st1.lastStatus,
                   updateHistory st1.history (classify resp2 config)⟩,
                  none))
    ∧ (initialState config).lastStatus = checkStatusUnknown := by
  refine ⟨watchURLStep_eq config now st resp ns hns, ?_, ?_, rfl⟩
  · intro hlast hns'
    rw [watchURLStep_eq config now st resp ns hns]
    have hc : ns ≠ checkStatusUnknown ∧ ns ≠ st.lastStatus :=
      ⟨hns', by rw [hlast]; exact hns'⟩
    rw [if_pos hc, if_pos hc, hlast]
  · intro st1 e hstep resp2 now2 ns2 hns2 hto
    rw [watchURLStep_eq config now st resp ns hns] at hstep
    by_cases hc : ns ≠ checkStatusUnknown ∧ ns ≠ st.lastStatus
    · rw [if_pos hc, if_pos hc] at hstep
      injection hstep with hpair
      injection hpair with h1 h2
      injection h2 with h3
      have hlast1 : st1.lastStatus = ns := by rw [← h1]
      have hto' : e.toStatus = ns := by rw [← h3]
      rw [watchURLStep_eq config now2 st1 resp2 ns2 hns2]
      have hcneg : ¬ (ns2 ≠ checkStatusUnknown ∧ ns2 ≠ st1.lastStatus) := by
        intro hcc
        exact hcc.2 (by rw [hlast1, hto, hto'])
      rw [if_neg hcneg, if_neg hcneg]
    · rw [if_neg hc, if_neg hc] at hstep
      injection hstep with hpair
      injection hpair with h1 h2
      exact Option.noConfusion h2

/-- Witness for C4: from the initial confirmed state
`checkStatusUnknown`, a poll that makes the evaluation `checkStatusOk`
emits exactly the event `Unknown -> Ok`. -/
theorem C4_watchStep_event_witness :
    watchURLStep ⟨"n", "u", [200], 1000, 1, 1, 1000⟩ 7
      ⟨checkStatusUnknown, [checkStatusAlarm]⟩ (some 200) =
      some (⟨checkStatusOk, [checkStatusOk]⟩,
            some ⟨"n", "u", 7, checkStatusUnknown, checkStatusOk⟩) := by
  have h := (C4_watchStep_event ⟨"n", "u", [200], 1000, 1, 1, 1000⟩ 7
    ⟨checkStatusUnknown, [checkStatusAlarm]⟩ (some 200) checkStatusOk
    (by decide)).2.1 rfl (by decide)
  rw [h]
  decide

/-- C8: each watcher iteration updates the history as a sliding window —
the new buffer is the old buffer with the oldest entry dropped and the
newest outcome appended — and over any run of the loop the buffer
length stays `(max OKPeriods AlarmPeriods).toNat`. -/
theorem C8_slidingWindow (config : urlConfig) (now : Int)
    (polls : List (Option Int)) (st stF : watchState)
    (evs : List statusChange)
    (hok : 1 ≤ config.OKPeriods)
    (hlen : st.history.length =
      (max config.OKPeriods config.AlarmPeriods).toNat)
    (hrun : watchURLRun config now st polls = some (stF, evs)) :
    stF.history.length = (max config.OKPeriods config.AlarmPeriods).toNat
    ∧ ∀ (hh : List checkStatus) (s : checkStatus),
        updateHistory hh s = hh.tail ++ [s]
        ∧ (hh ≠ [] → (updateHistory hh s).length = hh.length) := by
  have hmax : 1 ≤ max config.OKPeriods config.AlarmPeriods :=
    le_trans hok (maxGeLeft _ _)
  have hlen1 : 1 ≤ st.history.length := by rw [hlen]; omega
  constructor
  · rw [watchURLRun_length config now polls st stF evs hlen1 hrun, hlen]
  · intro hh s
    constructor
    · unfold updateHistory
      rw [List.drop_one]
    · intro hne
      have hz : hh.length ≠ 0 := fun h0 => hne (List.length_eq_zero.mp h0)
      unfold updateHistory
      simp
      omega

/-- Witness for C8: a two-poll run keeps the buffer at length
`(max 2 2).toNat = 2`. -/
theorem C8_slidingWindow_witness :
    ([checkStatusOk, checkStatusOk] : List checkStatus).length =
      (max (2 : Int) 2).toNat
    ∧ ∀ (hh : List checkStatus) (s : checkStatus),
        updateHistory hh s = hh.tail ++ [s]
        ∧ (hh ≠ [] → (updateHistory hh s).length = hh.length) :=
  C8_slidingWindow ⟨"n", "u", [200], 1, 2, 2, 1⟩ 0 [some 200, some 200]
    ⟨checkStatusUnknown, [checkStatusUnknown, checkStatusUnknown]⟩
    ⟨checkStatusOk, [checkStatusOk, checkStatusOk]⟩
    [⟨"n", "u", 0, checkStatusUnknown, checkStatusOk⟩]
    (by decide) (by decide) (by decide)

/-- C10: every recorded poll outcome is `checkStatusOk` or
`checkStatusAlarm`, never the neutral `checkStatusUnknown`;
consequently, once at least `max OKPeriods AlarmPeriods` polls have run
from the initial state, the history buffer contains no
`checkStatusUnknown` entry, however long the run continues. -/
theorem C10_noUnknownAfterFill (config : urlConfig) (now : Int)
    (polls : List (Option Int)) (stF : watchState)
    (evs : List statusChange)
    (hok : 1 ≤ config.OKPeriods)
    (hfill : (max config.OKPeriods config.AlarmPeriods).toNat ≤ polls.length)
    (hrun : watchURLRun config now (initialState config) polls =
      some (stF, evs)) :
    checkStatusUnknown ∉ stF.history
    ∧ ∀ resp, classify resp config ≠ checkStatusUnknown := by
  have hclass : ∀ resp, classify resp config ≠ checkStatusUnknown := by
    intro resp
    unfold classify
    split
    · decide
    · decide
  refine ⟨?_, hclass⟩
  have hmax : 1 ≤ max config.OKPeriods config.AlarmPeriods :=
    le_trans hok (maxGeLeft _ _)
  have hlen0 : (initialState config).history.length =
      (max config.OKPeriods config.AlarmPeriods).toNat := by
    unfold initialState
    simp
  have hlen1 : 1 ≤ (initialState config).history.length := by
    rw [hlen0]
    omega
  have hhist := watchURLRun_history config now polls (initialState config)
    stF evs hlen1 hrun
  intro hmem
  rw [hhist] at hmem
  have hsplit : polls.length = (initialState config).history.length +
      (polls.length - (initialState config).history.length) := by
    rw [hlen0]
    omega
  rw [hsplit, List.drop_append] at hmem
  have hmem2 := List.mem_of_mem_drop hmem
  rw [List.mem_map] at hmem2
  obtain ⟨r, hr, hcl⟩ := hmem2
  exact hclass r hcl

/-- Witness for C10: after two polls with window size 2 the buffer holds
no `checkStatusUnknown`. -/
theorem C10_noUnknownAfterFill_witness :
    checkStatusUnknown ∉ ([checkStatusOk, checkStatusOk] : List checkStatus)
    ∧ ∀ resp,
        classify resp ⟨"n", "u", [200], 1, 2, 2, 1⟩ ≠ checkStatusUnknown :=
  C10_noUnknownAfterFill ⟨"n", "u", [200], 1, 2, 2, 1⟩ 0
    [some 200, some 200]
    ⟨checkStatusOk, [checkStatusOk, checkStatusOk]⟩
    [⟨"n", "u", 0, checkStatusUnknown, checkStatusOk⟩]
    (by decide) (by decide) (by decide)

/-! The configuration validator. -/

lemma validateItems_none_iff (items : List urlConfig) : ∀ idx : Nat,
    validateItems items idx = none ↔
      ∀ u ∈ items, validateURLConfig u = none := by
  induction items with
  | nil =>
    intro idx
    simp [validateItems]
  | cons conf rest ih =>
    intro idx
    cases hv : validateURLConfig conf with
    | some err => simp [validateItems, hv]
    | none => simp [validateItems, hv, ih (idx + 1)]

/-- C6: `validateConfig` succeeds exactly when the three global fields
are non-empty, at least one target exists and every target passes
`validateURLConfig`; and it reports the first violation tagged with the
failing target's index: with valid globals and valid targets at indices
0 and 1, a target at index 2 with a non-empty url and an empty
`OKStatuses` set makes the whole validation fail with the error
`invalid item 2: empty OKStatuses`. -/
theorem C6_validateConfig (c : aliveConfig) :
    (validateConfig c = none ↔
      (c.SlackToken ≠ "" ∧ c.SlackChannel ≠ "" ∧ c.BotName ≠ "" ∧
       c.Items ≠ [] ∧ ∀ u ∈ c.Items, validateURLConfig u = none))
    ∧ (∀ (u0 u1 u2 : urlConfig) (rest : List urlConfig),
        c.SlackToken ≠ "" → c.SlackChannel ≠ "" → c.BotName ≠ "" →
        c.Items = u0 :: u1 :: u2 :: rest →
        validateURLConfig u0 = none → validateURLConfig u1 = none →
        u2.URL ≠ "" → u2.OKStatuses = [] →
        validateConfig c = some ("invalid item 2: empty OKStatuses")) := by
  constructor
  · unfold validateConfig
    by_cases h1 : c.SlackToken.length = 0
    · simp [if_pos h1, (stringLengthZero _).mp h1]
    · rw [if_neg h1]
      have h1' : c.SlackToken ≠ "" := fun he => h1 (by rw [he]; rfl)
      by_cases h2 : c.SlackChannel.length = 0
      · simp [if_pos h2, (stringLengthZero _).mp h2]
      · rw [if_neg h2]
        have h2' : c.SlackChannel ≠ "" := fun he => h2 (by rw [he]; rfl)
        by_cases h3 : c.BotName.length = 0
        · simp [if_pos h3, (stringLengthZero _).mp h3]
        · rw [if_neg h3]
          have h3' : c.BotName ≠ "" := fun he => h3 (by rw [he]; rfl)
          by_cases h4 : c.Items.length = 0
          · simp [if_pos h4, List.length_eq_zero.mp h4]
          · rw [if_neg h4]
            have h4' : c.Items ≠ [] := fun he => h4 (by rw [he]; rfl)
            rw [validateItems_none_iff c.Items 0]
            simp [h1', h2', h3', h4']
  · intro u0 u1 u2 rest hTok hChan hBot hItems hv0 hv1 hURL hOKs
    have hu2 : validateURLConfig u2 = some ("empty OKStatuses") := by
      unfold validateURLConfig
      rw [if_neg (fun hz => hURL ((stringLengthZero _).mp hz)),
          if_pos (by rw [hOKs]; rfl)]
    unfold validateConfig
    rw [if_neg (fun hz => hTok ((stringLengthZero _).mp hz)),
        if_neg (fun hz => hChan ((stringLengthZero _).mp hz)),
        if_neg (fun hz => hBot ((stringLengthZero _).mp hz)),
        hItems]
    rw [if_neg (by simp)]
    simp only [validateItems, hv0, hv1, hu2]
    decide

/-- Witness for C6 on a concrete configuration whose third target has an
empty status-code set. -/
theorem C6_validateConfig_witness :
    validateConfig ⟨[⟨"a", "u", [200], 1, 1, 1, 1⟩,
        ⟨"b", "u", [200], 1, 1, 1, 1⟩, ⟨"c", "u", [], 1, 1, 1, 1⟩],
        "tok", "chan", "bot"⟩ =
      some ("invalid item 2: empty OKStatuses") :=
  (C6_validateConfig ⟨[⟨"a", "u", [200], 1, 1, 1, 1⟩,
      ⟨"b", "u", [200], 1, 1, 1, 1⟩, ⟨"c", "u", [], 1, 1, 1, 1⟩],
      "tok", "chan", "bot"⟩).2
    ⟨"a", "u", [200], 1, 1, 1, 1⟩ ⟨"b", "u", [200], 1, 1, 1, 1⟩
    ⟨"c", "u", [], 1, 1, 1, 1⟩ []
    (by decide) (by decide) (by decide) rfl
    (by decide) (by decide) (by decide) rfl

end Itsalive
